import Mathlib

/-!
Shallow embedding of src/git-pull-request/git-pull-request.py: the branch
naming and identification functions, the per-pull-request JSON metadata
store, the close-time diff classification, the update / continue-update
orchestration, and the GitHub request glue.  External collaborators (the
git executable, the filesystem, the HTTP stack, the json library) appear
as explicit oracle parameters; everything the script itself computes is
transcribed directly from the source.
-/

/- ------------------------------------------------------------------ -/
/- JSON values and Python dict operations (metadata records)           -/
/- ------------------------------------------------------------------ -/

/-- JSON-like values as json.load produces them for the metadata records:
strings and string-keyed objects.  Objects are insertion-ordered key/value
lists, as Python dicts are. -/
inductive JVal where
  | str : String → JVal
  | obj : List (String × JVal) → JVal

/-- Python dict read d[k] (first binding wins; json.load never produces
duplicate keys). -/
def lookupField : List (String × JVal) → String → Option JVal
  | [], _ => none
  | (k', v) :: rest, k => if k' = k then some v else lookupField rest k

/-- Python dict assignment d[k] = v: replaces the binding in place when the
key exists, otherwise appends the new key at the end (insertion order). -/
def setField : List (String × JVal) → String → JVal → List (String × JVal)
  | [], k, v => [(k, v)]
  | (k', v') :: rest, k, v =>
    if k' = k then (k, v) :: rest else (k', v') :: setField rest k v

/-- The walk `for word in pieces: current_obj = current_obj[word]` performed
by `meta` (line 1906).  `none` models the KeyError raised on a missing key
and the TypeError raised when a non-dict is indexed with a string key. -/
def jsonGetPath : List String → JVal → Option JVal
  | [], v => some v
  | w :: ws, JVal.obj fields =>
    match lookupField fields w with
    | some sub => jsonGetPath ws sub
    | none => none
  | _ :: _, JVal.str _ => none

/-- The walk of `meta` followed by the assignment `current_obj[key] = value`
(line 1917), rebuilding the record that is then dumped wholesale back to the
file.  `none` models an exception during the walk or the assignment (the
file is then left unchanged because the dump never runs). -/
def jsonSetPath : List String → JVal → String → JVal → Option JVal
  | [], JVal.obj fields, k, v => some (JVal.obj (setField fields k v))
  | [], JVal.str _, _, _ => none
  | w :: ws, JVal.obj fields, k, v =>
    match lookupField fields w with
    | some sub =>
      match jsonSetPath ws sub k v with
      | some sub' => some (JVal.obj (setField fields w sub'))
      | none => none
    | none => none
  | _ :: _, JVal.str _, _, _ => none

/-- Python str.split with a one-character separator (the script only splits
on ".", " " and a newline): splitting the empty list yields one empty
group, and every separator occurrence starts a new group. -/
def pySplitChar (sep : Char) : List Char → List (List Char)
  | [] => [[]]
  | c :: rest =>
    match pySplitChar sep rest with
    | [] => [[]]
    | g :: gs => if c = sep then [] :: g :: gs else (c :: g) :: gs

/-- String-level wrapper for `pySplitChar`. -/
def strSplit (s : String) (sep : Char) : List String :=
  (pySplitChar sep s.data).map (fun l => String.mk l)

/-- Python substring containment `key in current_obj` when current_obj is a
string (the corner of `meta` where the walk lands on a non-dict). -/
def strContains (s pat : String) : Bool :=
  decide (pat.data <:+: s.data)

/- ------------------------------------------------------------------ -/
/- Branch naming and identification                                    -/
/- ------------------------------------------------------------------ -/

/-- Decimal digit character, as Python renders integers. -/
def digitChar (d : Nat) : Char := Char.ofNat (48 + d)

/-- Little-endian decimal digits of n, with fuel for structural recursion
(fuel at least n suffices). -/
def toDecAux : Nat → Nat → List Char
  | 0, _ => []
  | fuel + 1, n =>
    if n = 0 then [] else digitChar (n % 10) :: toDecAux fuel (n / 10)

/-- Python str(n) for a non-negative integer: decimal rendering. -/
def pyStr (n : Nat) : String :=
  if n = 0 then "0" else String.mk (toDecAux n n).reverse

/-- int(ds) on a non-empty string of decimal digit characters. -/
def parseDigits (ds : List Char) : Nat :=
  ds.foldl (fun a c => 10 * a + (c.toNat - 48)) 0

/-- Greedy match of the regex [A-Z]{3,}-[0-9]+ at the head of the list.
Python first takes the maximal run of uppercase letters; shortening the run
can never help, because the character after a shortened run is another
uppercase letter and not the required hyphen, so the greedy match is
exactly the backtracking match. -/
def ticketMatchAt (l : List Char) : Option (List Char) :=
  let u := l.takeWhile Char.isUpper
  if u.length < 3 then none
  else
    match l.drop u.length with
    | c :: rest =>
      if c = '-' then
        match rest.takeWhile Char.isDigit with
        | [] => none
        | d => some (u ++ '-' :: d)
      else none
    | [] => none

/-- re.search for [A-Z]{3,}-[0-9]+: try each start position from the left,
first successful position wins. -/
def ticketSearch : List Char → Option (List Char)
  | [] => none
  | c :: cs =>
    match ticketMatchAt (c :: cs) with
    | some m => some m
    | none => ticketSearch cs

/-- get_jira_ticket (lines 1223-1232): the first match of [A-Z]{3,}-[0-9]+
in the text, or the empty string when there is none. -/
def get_jira_ticket (text : String) : String :=
  match ticketSearch text.data with
  | some m => String.mk m
  | none => ""

/-- Modelled from the spec wording, for comparison with get_jira_ticket:
the text contains an occurrence of the ticket pattern, i.e. splits as
pre ++ u ++ "-" ++ d ++ post with u at least three uppercase letters and
d at least one digit. -/
def containsTicketPattern (s : String) : Prop :=
  ∃ pre u d post : List Char,
    s.data = pre ++ (u ++ ('-' :: (d ++ post))) ∧
    3 ≤ u.length ∧ (∀ c ∈ u, c.isUpper = true) ∧
    d ≠ [] ∧ (∀ c ∈ d, c.isDigit = true)

/-- The fields of the pull-request JSON that build_branch_name consumes:
pull_request["number"], pull_request["head"]["ref"], pull_request["title"]. -/
structure PullRequest where
  number : Nat
  head_ref : String
  title : String

/-- build_branch_name (lines 225-241): "pull-request-<id>", with
"-<ticket>" appended when a ticket is found in the head ref, or failing
that in the title. -/
def build_branch_name (pull_request : PullRequest) : String :=
  let branch_name := "pull-request-" ++ pyStr pull_request.number
  let jira_ticket :=
    if get_jira_ticket pull_request.head_ref = "" then
      get_jira_ticket pull_request.title
    else get_jira_ticket pull_request.head_ref
  if jira_ticket = "" then branch_name
  else branch_name ++ "-" ++ jira_ticket

/-- get_pull_request_ID (lines 1392-1402): re.search of
^pull-request-(\d+) against the branch name; the captured maximal digit
run, converted with int, or None when the regex does not match. -/
def get_pull_request_ID (branch_name : String) : Option Nat :=
  if branch_name.data.take 13 = "pull-request-".data then
    match (branch_name.data.drop 13).takeWhile Char.isDigit with
    | [] => none
    | ds => some (parseDigits ds)
  else none

/-- get_current_branch_name (lines 1196-1203) as a function of the branch
name git reports: raises UserWarning when ensure_pull_request is set and
the first 13 characters are not the literal prefix. -/
def get_current_branch_name_of (branch_name : String)
    (ensure_pull_request : Bool) : Except String String :=
  if ensure_pull_request = true ∧ branch_name.data.take 13 ≠ "pull-request-".data
  then Except.error "Invalid branch: not a pull request"
  else Except.ok branch_name

/-- The prelude of command_close (lines 407-416, identical in command_merge
and command_update): resolve the current branch, then recover the
pull-request ID from it.  The returned Option is the ID the rest of the
command proceeds with. -/
def command_close_precheck (branch_name : String) : Except String (Option Nat) :=
  match get_current_branch_name_of branch_name true with
  | Except.error e => Except.error e
  | Except.ok b => Except.ok (get_pull_request_ID b)

/- ------------------------------------------------------------------ -/
/- The metadata store: command_fetch record creation and meta          -/
/- ------------------------------------------------------------------ -/

/-- The record command_fetch writes at fetch time (lines 468-482):
the author login and the original commit pair, both SHAs cut to their
first ten characters with [0:10]. -/
def fetch_branch_info (username parent_commit head_commit : String) : JVal :=
  JVal.obj
    [("username", JVal.str username),
     ("original", JVal.obj
       [("parent_commit", JVal.str (parent_commit.take 10)),
        ("head_commit", JVal.str (head_commit.take 10))])]

/-- The state of one metadata record file: `none` is a file that does not
exist (open raises), `some none` a file whose contents json.load rejects
(truncated or unparsable), `some (some root)` a parsed record. -/
abbrev MetaFile := Option (Option JVal)

/-- The try-block of `meta` (lines 1894-1927) on the record file addressed
by the current pull-request ID: returns the value `meta` returns, the file
contents after the call, and the arguments of every `log` call made.
A missing or unparsable file raises inside the try, which logs and returns
None; a read of a present final key returns its value and an absent final
key returns ""; a write rebuilds the record and dumps it wholesale back to
the file; any failure during the walk or the assignment logs, leaves the
file unchanged and returns None. -/
def meta (file : MetaFile) (key : String) (value : Option JVal) :
    Option JVal × MetaFile × List (String × Option JVal) :=
  match file with
  | none => (none, none, [(key, value)])
  | some none => (none, some none, [(key, value)])
  | some (some root) =>
    let pieces := strSplit key '.'
    match pieces.getLast?, pieces.dropLast with
    | none, _ => (none, some (some root), [(key, value)])
    | some k, pre =>
      match value with
      | none =>
        match jsonGetPath pre root with
        | none => (none, some (some root), [(k, value)])
        | some (JVal.obj fields) =>
          (some ((lookupField fields k).getD (JVal.str "")), some (some root), [])
        | some (JVal.str s) =>
          if strContains s k then (none, some (some root), [(k, value)])
          else (some (JVal.str ""), some (some root), [])
      | some v =>
        match jsonSetPath pre root k v with
        | some root' => (some v, some (some root'), [])
        | none => (none, some (some root), [(k, value)])

/-- The console output `meta` produces through `log` as a function of the
debug-mode option: `log` (lines 1644-1647) prints unconditionally and never
consults DEBUG, so the debug flag does not occur on the right-hand side. -/
def meta_logs (debug_mode : Bool) (file : MetaFile) (key : String)
    (value : Option JVal) : List (String × Option JVal) :=
  (meta file key value).2.2

/- ------------------------------------------------------------------ -/
/- close_pull_request: diff-tree classification and the diff link      -/
/- ------------------------------------------------------------------ -/

/-- Python `a or b` on strings: the first operand unless it is empty. -/
def pyOrS (a b : String) : String := if a = "" then b else a

/-- One iteration of the loop in close_pull_request (lines 316-326): the
line pair differs when both lines split on single spaces into at least
four fields and the fields at index 3 (the blob identity) differ. -/
def lineBlobDiff (current original : String) : Bool :=
  let current_commits := (pySplitChar ' ' current.data).map String.mk
  let original_commits := (pySplitChar ' ' original.data).map String.mk
  decide (4 ≤ current_commits.length) &&
  decide (4 ≤ original_commits.length) &&
  decide (current_commits[3]? ≠ original_commits[3]?)

/-- The listing comparison of close_pull_request (lines 312-328): listings
of different line counts are a change; listings of equal line count are a
change exactly when some aligned line pair differs per `lineBlobDiff`. -/
def diff_changed (current_tree_commits original_tree_commits : List String) : Bool :=
  if current_tree_commits.length = original_tree_commits.length then
    (current_tree_commits.zip original_tree_commits).any
      (fun p => lineBlobDiff p.1 p.2)
  else true

/-- The diff-tree listing of a commit, split into lines.  `tree c` is the
stripped output of `git diff-tree -r -c -M -C --no-commit-id c`; the
script runs it once on HEAD (which resolves to the current head commit)
and once on the recorded original head commit. -/
def treeLines (tree : String → String) (commit : String) : List String :=
  (pySplitChar '\n' (tree commit).data).map String.mk

/-- The diff_commit flag of close_pull_request (lines 295-331): compare the
listings of HEAD and of the ORIGINAL head commit when they are distinct
commits, then force the flag off when the updated head commit (or, absent
that, the original head commit) equals the current head. -/
def close_diff_commit (tree : String → String)
    (original_head_commit updated_head_commit current_head_commit : String) : Bool :=
  let diff_commit :=
    if original_head_commit ≠ current_head_commit then
      diff_changed (treeLines tree current_head_commit)
        (treeLines tree original_head_commit)
    else false
  if pyOrS updated_head_commit original_head_commit = current_head_commit then false
  else diff_commit

/-- The "View just my changes" fragment (lines 333-342): appended to the
close comment exactly when diff_commit is set. -/
def close_my_diff_comment (tree : String → String) (repo_name username : String)
    (original_head_commit updated_head_commit current_head_commit : String) : String :=
  if close_diff_commit tree original_head_commit updated_head_commit
      current_head_commit then
    "\n\nView just my changes: https://github.com/" ++ repo_name ++ "/compare/" ++
      username ++ ":" ++ pyOrS updated_head_commit original_head_commit ++ "..." ++
      current_head_commit
  else ""

/-- Modelled from the claim wording, for comparison only: a classification
that compares the listing of HEAD with the listing of the LAST RECORDED
head commit (the updated head when present, the original head otherwise). -/
def claim_diff_changed_lastRecorded (tree : String → String)
    (original_head_commit updated_head_commit current_head_commit : String) : Bool :=
  diff_changed (treeLines tree current_head_commit)
    (treeLines tree (pyOrS updated_head_commit original_head_commit))

/- ------------------------------------------------------------------ -/
/- GitHub requests and the submit recovery path                        -/
/- ------------------------------------------------------------------ -/

/-- An HTTP response as urllib3 returns it: a status code and a decoded
body.  urllib3 does not raise on a non-2xx status. -/
structure HResp where
  status : Nat
  body : String

/-- github_request (lines 1540-1583) as a function of the response.
`none` models an exception from http.request (a transport failure); the
except block then dereferences the still-None response and so raises
itself.  A returned response raises only on an empty body; the status code
is never examined. -/
def github_request (resp : Option HResp) : Except String String :=
  match resp with
  | none => Except.error "AttributeError: NoneType has no attribute status"
  | some r =>
    if r.body = "" then Except.error "Invalid response from github"
    else Except.ok r.body

/-- github_json_request (lines 1534-1537): json.loads of the body.  The
json.loads library call is the oracle `parse`; `none` is a JSONDecodeError. -/
def github_json_request (parse : String → Option JVal) (resp : Option HResp) :
    Except String JVal :=
  match github_request resp with
  | Except.error e => Except.error e
  | Except.ok data =>
    match parse data with
    | some j => Except.ok j
    | none => Except.error "JSONDecodeError"

/-- The pull-request fields the submit recovery loop reads. -/
structure PullInfo where
  user_login : String
  head_ref : String
  base_ref : String
deriving DecidableEq

/-- get_pull_requests (lines 1405-1420) with filter_by_update_branch=True:
keep the pulls whose base ref is the configured update branch. -/
def get_pull_requests_filtered (update_branch : String) (pulls : List PullInfo) :
    List PullInfo :=
  pulls.filter (fun pull => pull.base_ref = update_branch)

/-- The recovery loop of command_submit (lines 865-872): scan the reviewer
pulls and keep the last one by the same user with the same head branch. -/
def submit_find (username branch_name : String) (reviewer_pulls : List PullInfo) :
    Option PullInfo :=
  reviewer_pulls.foldl
    (fun pull_request pr =>
      if pr.user_login = username ∧ pr.head_ref = branch_name then some pr
      else pull_request)
    none

/-- The outcome of command_submit around the creation request (lines
853-875): a successful creation is returned as is; when the request raised,
the reviewer repository open pulls (filtered to the update branch) are
scanned for a request by the same user with the same head branch, and the
original error is re-raised only when none is found. -/
def submit_resolve (creation : Except String PullInfo)
    (username branch_name update_branch : String)
    (reviewer_pulls : List PullInfo) : Except String PullInfo :=
  match creation with
  | Except.ok pull_request => Except.ok pull_request
  | Except.error msg =>
    match submit_find username branch_name
        (get_pull_requests_filtered update_branch reviewer_pulls) with
    | some pull_request => Except.ok pull_request
    | none => Except.error msg

/- ------------------------------------------------------------------ -/
/- update / continue-update orchestration                              -/
/- ------------------------------------------------------------------ -/

/-- The external world the update commands consult, keyed by the current
working directory where the answer depends on it:
`work_dir` is get_work_dir (none when the option is unset or the directory
is missing); `in_work_dir_at d` is in_work_dir() evaluated in directory d
(toplevel equality plus the .git/config symlink check); `base_path_at d` is
git rev-parse --show-toplevel in d; `branch_at d` is
git rev-parse --abbrev-ref HEAD in d; `exit_at d cmd` is whether os.system
cmd exits zero in d; `popen_at d cmd` is the stdout os.popen cmd yields in
d. -/
structure Env where
  work_dir : Option String
  in_work_dir_at : String → Bool
  base_path_at : String → String
  branch_at : String → String
  exit_at : String → String → Bool
  popen_at : String → String → String

/-- The mutable world the update commands touch: the process working
directory, the ordered trace of os.system invocations (with the directory
each ran in), the tmp chdir pointer file written by chdir(), the
original_dir_path file inside the work directory, the metadata record
files keyed by pull-request ID, and the accumulated log output. -/
structure St where
  cwd : String
  trace : List (String × String)
  chdir_file : Option String
  orig_dir_file : Option String
  meta_files : Nat → MetaFile
  logs : List (String × Option JVal)

/-- os.system: record the invocation and report the oracle exit status. -/
def runSys (env : Env) (st : St) (cmd : String) : Bool × St :=
  (env.exit_at st.cwd cmd, { st with trace := st.trace ++ [(st.cwd, cmd)] })

/-- get_current_branch_name (lines 1196-1203) against the live repository. -/
def get_current_branch_name (env : Env) (st : St) (ensure_pull_request : Bool) :
    Except String String :=
  get_current_branch_name_of (env.branch_at st.cwd) ensure_pull_request

/-- get_original_dir_path (lines 1235-1246): read the original_dir_path
file inside the work directory; a missing file raises out of the open
call.  The file is opened in "rb" mode, so the content read is bytes, and
the guard original_dir_path == None or original_dir_path == "" compares
those bytes with the str "" - always False under Python 3 - so the
.git/config readlink fallback is dead code and the content is returned
exactly as read (the empty content included). -/
def get_original_dir_path (st : St) : Except String String :=
  match st.orig_dir_file with
  | none => Except.error "IOError: original_dir_path does not exist"
  | some s => Except.ok s

/-- The meta accessor (lines 1884-1927) against the live store: resolve the
current branch with ensure_pull_request=False, recover the ID, and operate
on the record file it addresses; no ID means no file access and no log. -/
def meta_st (env : Env) (st : St) (key : String) (value : Option JVal) : St :=
  match get_pull_request_ID (env.branch_at st.cwd) with
  | none => st
  | some id =>
    let r := meta (st.meta_files id) key value
    { st with
      meta_files := fun i => if i = id then r.2.1 else st.meta_files i,
      logs := st.logs ++ r.2.2 }

/-- update_meta (lines 2028-2049): recompute the updated commit pair (the
merge base of the update branch and the current branch, and HEAD, both
stripped and cut to ten characters) and store it under "updated".  The
leading get_current_branch_name call raises when the current branch is not
a pull-request branch. -/
def update_meta (env : Env) (update_branch : String) (st : St) :
    St × Option String :=
  match get_current_branch_name env st true with
  | Except.error e => (st, some e)
  | Except.ok branch_name =>
    let parent_commit :=
      ((env.popen_at st.cwd
        ("git merge-base " ++ update_branch ++ " " ++ branch_name)).trim).take 10
    let head_commit := ((env.popen_at st.cwd "git rev-parse HEAD").trim).take 10
    let updated := JVal.obj
      [("parent_commit", JVal.str parent_commit),
       ("head_commit", JVal.str head_commit)]
    (meta_st env st "updated" (some updated), none)

/-- complete_update (lines 1000-1037): when running inside the work
directory, check out the update branch there, return to the recorded
original directory (writing the chdir pointer file), and either hard-reset
the original checkout (when it already sits on the updated branch) or
check the branch out there; in every case finish by recomputing and
persisting the updated pair through update_meta. -/
def complete_update (env : Env) (update_branch branch_name : String) (st : St) :
    St × Option String :=
  if env.in_work_dir_at st.cwd then
    let r1 := runSys env st ("git checkout " ++ update_branch)
    if r1.1 = false then
      (r1.2, some ("Could not checkout " ++ update_branch ++
        " branch in work directory"))
    else
      match get_original_dir_path r1.2 with
      | Except.error e => (r1.2, some e)
      | Except.ok original_dir_path =>
        let st2 := { r1.2 with cwd := original_dir_path,
                               chdir_file := some original_dir_path }
        if env.branch_at st2.cwd = branch_name then
          let r3 := runSys env st2 "git reset --hard && git clean -f"
          if r3.1 = false then
            (r3.2, some ("Syncing branch " ++ branch_name ++
              " with work directory failed"))
          else update_meta env update_branch r3.2
        else
          let r3 := runSys env st2 ("git checkout " ++ branch_name)
          if r3.1 = false then
            (r3.2, some ("Could not checkout " ++ branch_name))
          else update_meta env update_branch r3.2
  else update_meta env update_branch st

/-- continue_update (lines 1040-1055): run the completion half of the
configured update method (git commit for merge, git rebase --continue for
rebase; any other method leaves the Python local ret unbound and raises
NameError), raise the resolve-and-continue instruction when it exits
non-zero, and otherwise finish through complete_update on the branch git
now reports. -/
def continue_update (env : Env) (update_method update_branch : String) (st : St) :
    St × Option String :=
  match
    (if update_method = "merge" then some "git commit"
     else if update_method = "rebase" then some "git rebase --continue"
     else none) with
  | none => (st, some "NameError: name ret is not defined")
  | some cmd =>
    let r1 := runSys env st cmd
    if r1.1 = false then
      (r1.2, some ("Updating from " ++ update_branch ++
        " failed\nResolve conflicts and \x27git add\x27 files, then run \x27gitpr continue-update\x27"))
    else
      match get_current_branch_name env r1.2 true with
      | Except.error e => (r1.2, some e)
      | Except.ok branch_name => complete_update env update_branch branch_name r1.2

/-- update_branch (lines 1979-2025): refuse to start inside the work
directory; when a work directory is configured, compute the caller base
path, move into the work directory and open the original_dir_path file in
"wb" mode - which truncates it - and then write the base path into it.
The base path is a str (os.popen read), so under Python 3 the binary-mode
write raises an uncaught TypeError (main catches only UserWarning): the
hard reset, the branch checkout and the merge or rebase are never reached
and the pointer file is left empty.  Without a work directory, check out
the branch, run git <method> <update-branch>, and on conflict raise the
resolve-and-continue instruction, otherwise finish through
complete_update.  (The conflict-path chdir(work_dir) call writes the str
work_dir into the binary-mode tmp pointer file and has the same
truncate-then-TypeError behavior; with a work directory configured that
branch is unreachable because of the earlier crash.) -/
def update_branch (env : Env) (update_method update_branch_opt branch_name : String)
    (st : St) : St × Option String :=
  if env.in_work_dir_at st.cwd then
    (st, some ("Cannot perform an update from within the work directory.\nIf you are done fixing conflicts run \x27gitpr continue-update\x27 to complete the update."))
  else
    let step :=
      match env.work_dir with
      | some work_dir =>
        let _original_dir_path := env.base_path_at st.cwd
        ({ st with cwd := work_dir, orig_dir_file := some "" },
         some "TypeError: a bytes-like object is required, not str")
      | none => (st, none)
    match step with
    | (st2, some e) => (st2, some e)
    | (st2, none) =>
      let r2 := runSys env st2 ("git checkout " ++ branch_name)
      if r2.1 = false then
        (r2.2, some
          (match env.work_dir with
           | some _ => "Could not checkout " ++ branch_name ++
               " in the work directory, update not performed"
           | none => "Could not checkout " ++ branch_name ++
               ", update not performed"))
      else
        let r3 := runSys env r2.2 ("git " ++ update_method ++ " " ++ update_branch_opt)
        if r3.1 = false then
          match env.work_dir with
          | some _ =>
            ({ r3.2 with chdir_file := some "" },
             some "TypeError: a bytes-like object is required, not str")
          | none =>
            (r3.2, some ("Updating " ++ branch_name ++ " from " ++ update_branch_opt ++
              " failed\nResolve conflicts and \x27git add\x27 files, then run \x27gitpr continue-update\x27"))
        else complete_update env update_branch_opt branch_name r3.2

/-- A concrete environment used by the witnesses of the update claims:
no work directory, every git command succeeds, the current branch is
pull-request-1 everywhere, and the two popen outputs are fixed SHAs. -/
def witnessEnv : Env :=
  { work_dir := none,
    in_work_dir_at := fun _ => false,
    base_path_at := fun _ => "/repo",
    branch_at := fun _ => "pull-request-1",
    exit_at := fun _ _ => true,
    popen_at := fun _ cmd =>
      if cmd = "git rev-parse HEAD" then "1234567890abcdef" else "fedcba0987654321" }

/-- A concrete environment used by the work-directory witness: a work
directory is configured and the caller starts outside of it. -/
def witnessWorkDirEnv : Env :=
  { work_dir := some "/work",
    in_work_dir_at := fun d => d = "/work",
    base_path_at := fun _ => "/repo",
    branch_at := fun _ => "pull-request-1",
    exit_at := fun _ _ => true,
    popen_at := fun _ cmd =>
      if cmd = "git rev-parse HEAD" then "1234567890abcdef" else "fedcba0987654321" }

/-- A concrete starting state used by the witnesses of the update claims:
the process sits in /repo and the metadata record of pull request 1 exists
with its fetch-time contents. -/
def witnessSt : St :=
  { cwd := "/repo",
    trace := [],
    chdir_file := none,
    orig_dir_file := none,
    meta_files := fun i =>
      if i = 1 then some (some (JVal.obj [("username", JVal.str "alice")])) else none,
    logs := [] }

/- ------------------------------------------------------------------ -/
/- Helper lemmas                                                       -/
/- ------------------------------------------------------------------ -/

theorem lookupField_setField_self (fields : List (String × JVal)) (k : String)
    (v : JVal) : lookupField (setField fields k v) k = some v := by
  induction fields with
  | nil => simp [setField, lookupField]
  | cons p rest ih =>
    obtain ⟨k', v'⟩ := p
    by_cases h : k' = k
    · simp [setField, h, lookupField]
    · simp [setField, h, lookupField, ih]

theorem lookupField_setField_ne (fields : List (String × JVal)) (k k' : String)
    (v : JVal) (hne : k' ≠ k) :
    lookupField (setField fields k v) k' = lookupField fields k' := by
  induction fields with
  | nil => simp [setField, lookupField, Ne.symm hne]
  | cons p rest ih =>
    obtain ⟨k'', v''⟩ := p
    by_cases h : k'' = k
    · subst h
      simp [setField, lookupField, Ne.symm hne]
    · simp [setField, h, lookupField, ih]

/- ------------------------------------------------------------------ -/
/- Claim C1                                                            -/
/- ------------------------------------------------------------------ -/

/-- Claim C1: creating the metadata record at fetch time and reading it
back yields original.parent_commit = p[0:10] and original.head_commit =
h[0:10]; a subsequent setUpdated (the meta write of "updated" performed by
update_meta) sets the updated sub-record to the given pair and leaves
username and original exactly as first written, and a second update
overwrites only the updated sub-record again. -/
theorem C1_metadata_record_roundtrip (u p h p2 h2 p3 h3 : String) :
    jsonGetPath ["original", "parent_commit"] (fetch_branch_info u p h) =
      some (JVal.str (p.take 10)) ∧
    jsonGetPath ["original", "head_commit"] (fetch_branch_info u p h) =
      some (JVal.str (h.take 10)) ∧
    jsonGetPath ["username"] (fetch_branch_info u p h) = some (JVal.str u) ∧
    (meta (some (some (fetch_branch_info u p h))) "updated"
        (some (JVal.obj [("parent_commit", JVal.str p2),
                         ("head_commit", JVal.str h2)]))).2.1
      = some (some (JVal.obj
          [("username", JVal.str u),
           ("original", JVal.obj
             [("parent_commit", JVal.str (p.take 10)),
              ("head_commit", JVal.str (h.take 10))]),
           ("updated", JVal.obj [("parent_commit", JVal.str p2),
                                 ("head_commit", JVal.str h2)])])) ∧
    (meta (some (some (JVal.obj
          [("username", JVal.str u),
           ("original", JVal.obj
             [("parent_commit", JVal.str (p.take 10)),
              ("head_commit", JVal.str (h.take 10))]),
           ("updated", JVal.obj [("parent_commit", JVal.str p2),
                                 ("head_commit", JVal.str h2)])])))
        "updated"
        (some (JVal.obj [("parent_commit", JVal.str p3),
                         ("head_commit", JVal.str h3)]))).2.1
      = some (some (JVal.obj
          [("username", JVal.str u),
           ("original", JVal.obj
             [("parent_commit", JVal.str (p.take 10)),
              ("head_commit", JVal.str (h.take 10))]),
           ("updated", JVal.obj [("parent_commit", JVal.str p3),
                                 ("head_commit", JVal.str h3)])])) :=
  ⟨rfl, rfl, rfl, rfl, rfl⟩

/- ------------------------------------------------------------------ -/
/- Claim C10                                                           -/
/- ------------------------------------------------------------------ -/

/-- Claim C10: a metadata write through the generic accessor with a
single-segment key rewrites the record wholesale to the same object with
only the addressed key replaced (or appended), so every other field - in
particular username and original - reads back unchanged, through a direct
lookup as well as through the accessor itself. -/
theorem C10_meta_write_frame (fields : List (String × JVal)) (k : String)
    (v : JVal) (hk : strSplit k '.' = [k]) :
    (meta (some (some (JVal.obj fields))) k (some v)).2.1
      = some (some (JVal.obj (setField fields k v))) ∧
    lookupField (setField fields k v) k = some v ∧
    (∀ k', k' ≠ k → lookupField (setField fields k v) k' = lookupField fields k') ∧
    (∀ k', k' ≠ k → strSplit k' '.' = [k'] →
      (meta (some (some (JVal.obj (setField fields k v)))) k' none).1
        = (meta (some (some (JVal.obj fields))) k' none).1) := by
  refine ⟨?_, lookupField_setField_self fields k v,
    fun k' hne => lookupField_setField_ne fields k k' v hne, ?_⟩
  · simp [meta, hk, jsonSetPath]
  · intro k' hne hk'
    simp [meta, hk', jsonGetPath, lookupField_setField_ne fields k k' v hne]

/-- Witness for C10: writing new_pr_url leaves username and original
untouched in a concrete record. -/
theorem C10_meta_write_frame_witness :
    (meta (some (some (JVal.obj
        [("username", JVal.str "alice"),
         ("original", JVal.obj [("parent_commit", JVal.str "p"),
                                ("head_commit", JVal.str "h")])])))
        "new_pr_url" (some (JVal.str "https://github.com/o/r/pull/7"))).2.1
      = some (some (JVal.obj (setField
          [("username", JVal.str "alice"),
           ("original", JVal.obj [("parent_commit", JVal.str "p"),
                                  ("head_commit", JVal.str "h")])]
          "new_pr_url" (JVal.str "https://github.com/o/r/pull/7")))) ∧
    lookupField (setField
        [("username", JVal.str "alice"),
         ("original", JVal.obj [("parent_commit", JVal.str "p"),
                                ("head_commit", JVal.str "h")])]
        "new_pr_url" (JVal.str "https://github.com/o/r/pull/7")) "username"
      = some (JVal.str "alice") :=
  ⟨(C10_meta_write_frame _ "new_pr_url" _ rfl).1,
   (C10_meta_write_frame _ "new_pr_url"
      (JVal.str "https://github.com/o/r/pull/7") rfl).2.2.1 "username"
      (by decide)⟩

/- ------------------------------------------------------------------ -/
/- Claim C8                                                            -/
/- ------------------------------------------------------------------ -/

/-- Counterexample to claim C8 as stated: with debug mode off, a metadata
read that hits a missing record file still emits a log entry, so the
failure is not logged only in verbose/debug mode. -/
theorem C8_counterexample :
    (meta none "new_pr_url" none).1 = none ∧
    meta_logs false none "new_pr_url" none ≠ [] :=
  ⟨rfl, List.cons_ne_nil _ _⟩

/-- Claim C8 (amended): a metadata read or write that hits a missing or
unparsable record file returns None instead of throwing and leaves the
file untouched, but the failure is logged unconditionally - the log output
is the same whatever the debug-mode option is. -/
theorem C8_meta_absent (debug_mode : Bool) (file : MetaFile) (key : String)
    (value : Option JVal) (hfile : file = none ∨ file = some none) :
    (meta file key value).1 = none ∧
    (meta file key value).2.1 = file ∧
    meta_logs debug_mode file key value = [(key, value)] := by
  rcases hfile with rfl | rfl <;> exact ⟨rfl, rfl, rfl⟩

/-- Witness for C8: a read of new_pr_url on a never-created record with
debug mode off. -/
theorem C8_meta_absent_witness :
    (meta none "new_pr_url" none).2.1 = none ∧
    meta_logs false none "new_pr_url" none = [("new_pr_url", none)] :=
  ⟨(C8_meta_absent false none "new_pr_url" none (Or.inl rfl)).2.1,
   (C8_meta_absent false none "new_pr_url" none (Or.inl rfl)).2.2⟩

/- ------------------------------------------------------------------ -/
/- Claim C3                                                            -/
/- ------------------------------------------------------------------ -/

theorem string_append_ne_empty (s t : String) (hs : s ≠ "") : s ++ t ≠ "" := by
  intro hcontra
  apply hs
  cases s with
  | mk sd =>
    cases t with
    | mk td =>
      have hd : sd ++ td = ([] : List Char) := congrArg String.data hcontra
      have hsd : sd = [] := (List.append_eq_nil.mp hd).1
      subst hsd
      rfl

theorem lineBlobDiff_self (s : String) : lineBlobDiff s s = false := by
  simp [lineBlobDiff]

theorem any_lineBlobDiff_zip_self (L : List String) :
    (L.zip L).any (fun pr => lineBlobDiff pr.1 pr.2) = false := by
  induction L with
  | nil => rfl
  | cons a L ih => simp [List.any_cons, lineBlobDiff_self, ih]

/-- Counterexample to claim C3 as stated: the code classifies against the
listing of the ORIGINAL head commit, not the last recorded one.  Here the
updated head commit and HEAD have identical listings (so the claim rules
classify unchanged) while the original head commit listing differs in the
blob field, and the code classifies changed. -/
theorem C3_counterexample :
    close_diff_commit
      (fun cmt => if cmt = "origsha" then ":100644 100644 aaa bbb M"
                  else ":100644 100644 aaa ccc M")
      "origsha" "updsha" "cursha" = true ∧
    claim_diff_changed_lastRecorded
      (fun cmt => if cmt = "origsha" then ":100644 100644 aaa bbb M"
                  else ":100644 100644 aaa ccc M")
      "origsha" "updsha" "cursha" = false :=
  ⟨rfl, rfl⟩

/-- Claim C3 (amended): the classification compares the diff-tree listing
of HEAD against the listing of the ORIGINAL head commit (not the last
recorded one), skips the comparison when the original head equals HEAD,
and is forced to unchanged when the updated head (or, absent that, the
original head) equals HEAD; listings of differing line count classify as
changed, equal-length listings classify as changed exactly when some
aligned line pair differs in the blob-identity field, two identical
listings classify as unchanged, and the view-just-my-changes link is
appended exactly when the classification is changed. -/
theorem C3_diff_classification (tree : String → String)
    (repo_name username original_head updated_head current_head : String) :
    (close_diff_commit tree original_head updated_head current_head =
      (decide (pyOrS updated_head original_head ≠ current_head) &&
       decide (original_head ≠ current_head) &&
       diff_changed (treeLines tree current_head) (treeLines tree original_head))) ∧
    (close_my_diff_comment tree repo_name username original_head updated_head
        current_head ≠ "" ↔
      close_diff_commit tree original_head updated_head current_head = true) ∧
    (∀ L : List String, diff_changed L L = false) ∧
    (∀ L L' : List String, diff_changed L L' = true ↔
      (L.length ≠ L'.length ∨
        ∃ pr, pr ∈ L.zip L' ∧ lineBlobDiff pr.1 pr.2 = true)) := by
  refine ⟨?_, ?_, ?_, ?_⟩
  · by_cases h1 : pyOrS updated_head original_head = current_head
    · simp [close_diff_commit, h1]
    · by_cases h2 : original_head = current_head
      · simp [close_diff_commit, h1, h2]
      · simp [close_diff_commit, h1, h2]
  · by_cases hf : close_diff_commit tree original_head updated_head current_head = true
    · rw [close_my_diff_comment, if_pos hf]
      constructor
      · intro _; exact hf
      · intro _
        exact string_append_ne_empty _ _ (string_append_ne_empty _ _
          (string_append_ne_empty _ _ (string_append_ne_empty _ _
            (string_append_ne_empty _ _ (string_append_ne_empty _ _
              (string_append_ne_empty _ _ (by decide)))))))
    · rw [close_my_diff_comment, if_neg hf]
      simp [hf]
  · intro L
    simp [diff_changed, any_lineBlobDiff_zip_self]
  · intro L L'
    by_cases hl : L.length = L'.length
    · simp [diff_changed, hl, List.any_eq_true]
    · simp [diff_changed, hl]

/- ------------------------------------------------------------------ -/
/- Claim C7                                                            -/
/- ------------------------------------------------------------------ -/

theorem submit_find_eq_some (username branch_name : String) :
    ∀ (pulls : List PullInfo) (acc : Option PullInfo) (pr : PullInfo),
    pulls.foldl
      (fun pull_request q =>
        if q.user_login = username ∧ q.head_ref = branch_name then some q
        else pull_request) acc = some pr →
    (pr ∈ pulls ∧ pr.user_login = username ∧ pr.head_ref = branch_name) ∨
      acc = some pr := by
  intro pulls
  induction pulls with
  | nil => intro acc pr hp; exact Or.inr hp
  | cons hd tl ih =>
    intro acc pr hp
    rcases ih _ pr hp with ⟨hmem, hu, hb⟩ | hacc
    · exact Or.inl ⟨List.mem_cons_of_mem hd hmem, hu, hb⟩
    · by_cases hc : hd.user_login = username ∧ hd.head_ref = branch_name
      · simp only [if_pos hc] at hacc
        cases hacc
        exact Or.inl ⟨List.mem_cons_self hd tl, hc⟩
      · simp only [if_neg hc] at hacc
        exact Or.inr hacc

theorem submit_find_eq_none (username branch_name : String)
    (pulls : List PullInfo)
    (hnone : ∀ q, q ∈ pulls → ¬(q.user_login = username ∧ q.head_ref = branch_name)) :
    submit_find username branch_name pulls = none := by
  rw [submit_find]
  induction pulls with
  | nil => rfl
  | cons hd tl ih =>
    rw [List.foldl_cons, if_neg (hnone hd (List.mem_cons_self hd tl))]
    exact ih (fun q hq => hnone q (List.mem_cons_of_mem hd hq))

/-- Counterexample to claim C7 as stated: a non-2xx response with a
non-empty well-formed JSON body is not fatal; github_request never
inspects the status code, so a 404 error document is returned as ordinary
parsed data to every caller. -/
theorem C7_counterexample :
    github_json_request
      (fun _ => some (JVal.obj [("message", JVal.str "Not Found")]))
      (some (HResp.mk 404 "\x7b\"message\": \"Not Found\"\x7d"))
      = Except.ok (JVal.obj [("message", JVal.str "Not Found")]) ∧
    (HResp.mk 404 "\x7b\"message\": \"Not Found\"\x7d").status = 404 :=
  ⟨rfl, rfl⟩

/-- Claim C7 (amended): a JSON request succeeds exactly when the transport
returned a response with a non-empty body that json.loads accepts - the
HTTP status is never consulted; and when the creation request of submit
fails, the reviewer pulls with base equal to the configured update branch
are re-queried for a request by the same user with the same head branch,
the (last) match is returned as success, and the original error is
escalated only when there is none. -/
theorem C7_api_failure_handling (parse : String → Option JVal)
    (resp : Option HResp) (creation_err username branch_name update_branch : String)
    (reviewer_pulls : List PullInfo) (pr0 : PullInfo) :
    ((∃ j, github_json_request parse resp = Except.ok j) ↔
      (∃ r, resp = some r ∧ r.body ≠ "" ∧ ∃ j, parse r.body = some j)) ∧
    (submit_resolve (Except.ok pr0) username branch_name update_branch
      reviewer_pulls = Except.ok pr0) ∧
    (∀ pr, submit_resolve (Except.error creation_err) username branch_name
        update_branch reviewer_pulls = Except.ok pr →
      pr ∈ reviewer_pulls ∧ pr.user_login = username ∧
        pr.head_ref = branch_name ∧ pr.base_ref = update_branch) ∧
    ((∀ q, q ∈ reviewer_pulls →
        ¬(q.user_login = username ∧ q.head_ref = branch_name ∧
          q.base_ref = update_branch)) →
      submit_resolve (Except.error creation_err) username branch_name
        update_branch reviewer_pulls = Except.error creation_err) := by
  refine ⟨?_, rfl, ?_, ?_⟩
  · match resp with
    | none => simp [github_json_request, github_request]
    | some r =>
      by_cases hbody : r.body = ""
      · simp [github_json_request, github_request, hbody]
      · match hparse : parse r.body with
        | none => simp [github_json_request, github_request, hbody, hparse]
        | some j => simp [github_json_request, github_request, hbody, hparse]
  · intro pr hpr
    rw [submit_resolve] at hpr
    match hfind : submit_find username branch_name
        (get_pull_requests_filtered update_branch reviewer_pulls) with
    | none => rw [hfind] at hpr; cases hpr
    | some q =>
      rw [hfind] at hpr
      cases hpr
      rcases submit_find_eq_some username branch_name _ none pr hfind with
        ⟨hmem, hu, hb⟩ | habs
      · have hmem' := List.mem_filter.mp hmem
        exact ⟨hmem'.1, hu, hb, of_decide_eq_true hmem'.2⟩
      · cases habs
  · intro hnone
    rw [submit_resolve, submit_find_eq_none username branch_name _ ?_]
    intro q hq
    have hq' := List.mem_filter.mp hq
    intro ⟨hu, hb⟩
    exact hnone q hq'.1 ⟨hu, hb, of_decide_eq_true hq'.2⟩

/-- Witness for C7: the recovery path finds the concrete resubmitted pull
and the escalation path re-raises the original error on an empty list. -/
theorem C7_api_failure_handling_witness :
    ((PullInfo.mk "alice" "feature" "master") ∈
        [PullInfo.mk "alice" "feature" "master"] ∧
      (PullInfo.mk "alice" "feature" "master").user_login = "alice" ∧
      (PullInfo.mk "alice" "feature" "master").head_ref = "feature" ∧
      (PullInfo.mk "alice" "feature" "master").base_ref = "master") ∧
    submit_resolve (Except.error "boom") "alice" "feature" "master" []
      = Except.error "boom" :=
  ⟨(C7_api_failure_handling (fun _ => none) none "boom" "alice" "feature"
      "master" [PullInfo.mk "alice" "feature" "master"]
      (PullInfo.mk "alice" "feature" "master")).2.2.1
      (PullInfo.mk "alice" "feature" "master") rfl,
   (C7_api_failure_handling (fun _ => none) none "boom" "alice" "feature"
      "master" [] (PullInfo.mk "alice" "feature" "master")).2.2.2
      (by intro q hq; cases hq)⟩

/- ------------------------------------------------------------------ -/
/- Decimal rendering and parsing lemmas                                -/
/- ------------------------------------------------------------------ -/

theorem data_append (a b : String) : (a ++ b).data = a.data ++ b.data := rfl

theorem digitChar_isDigit (d : Nat) (h : d < 10) : (digitChar d).isDigit = true := by
  interval_cases d <;> decide

theorem digitChar_toNat (d : Nat) (h : d < 10) : (digitChar d).toNat = 48 + d := by
  interval_cases d <;> decide

theorem toDecAux_all_digit :
    ∀ (fuel n : Nat), ∀ c ∈ toDecAux fuel n, c.isDigit = true := by
  intro fuel
  induction fuel with
  | zero => intro n c hc; cases hc
  | succ fuel ih =>
    intro n c hc
    rw [toDecAux] at hc
    by_cases hn : n = 0
    · rw [if_pos hn] at hc; cases hc
    · rw [if_neg hn] at hc
      rcases List.mem_cons.mp hc with rfl | hc'
      · exact digitChar_isDigit _ (Nat.mod_lt n (by omega))
      · exact ih _ c hc'

theorem parseDigits_append_one (xs : List Char) (c : Char) :
    parseDigits (xs ++ [c]) = 10 * parseDigits xs + (c.toNat - 48) := by
  simp [parseDigits, List.foldl_append]

theorem parseDigits_toDecAux :
    ∀ (fuel n : Nat), n ≤ fuel → parseDigits (toDecAux fuel n).reverse = n := by
  intro fuel
  induction fuel with
  | zero =>
    intro n hn
    interval_cases n
    rfl
  | succ fuel ih =>
    intro n hn
    rw [toDecAux]
    by_cases hn0 : n = 0
    · rw [if_pos hn0, hn0]; rfl
    · have hdivle : n / 10 ≤ fuel := by
        have hlt : n / 10 < n := Nat.div_lt_self (Nat.pos_of_ne_zero hn0) (by omega)
        omega
      rw [if_neg hn0, List.reverse_cons, parseDigits_append_one,
        ih (n / 10) hdivle, digitChar_toNat _ (Nat.mod_lt n (by omega))]
      omega

theorem toDecAux_ne_nil (fuel n : Nat) (h1 : 0 < n) (h2 : n ≤ fuel) :
    toDecAux fuel n ≠ [] := by
  cases fuel with
  | zero => omega
  | succ fuel =>
    rw [toDecAux, if_neg (by omega : ¬ n = 0)]
    exact List.cons_ne_nil _ _

theorem pyStr_all_digit (n : Nat) : ∀ c ∈ (pyStr n).data, c.isDigit = true := by
  intro c hc
  rw [pyStr] at hc
  by_cases hn : n = 0
  · rw [if_pos hn] at hc
    rcases List.mem_singleton.mp hc with rfl
    decide
  · rw [if_neg hn] at hc
    exact toDecAux_all_digit n n c (List.mem_reverse.mp hc)

theorem pyStr_data_ne_nil (n : Nat) : (pyStr n).data ≠ [] := by
  rw [pyStr]
  by_cases hn : n = 0
  · rw [if_pos hn]; exact List.cons_ne_nil _ _
  · rw [if_neg hn]
    intro hcontra
    exact toDecAux_ne_nil n n (Nat.pos_of_ne_zero hn) (Nat.le_refl n)
      (List.reverse_eq_nil_iff.mp hcontra)

theorem parseDigits_pyStr (n : Nat) : parseDigits (pyStr n).data = n := by
  rw [pyStr]
  by_cases hn : n = 0
  · rw [if_pos hn, hn]; rfl
  · rw [if_neg hn]
    exact parseDigits_toDecAux n n (Nat.le_refl n)

theorem takeWhile_append_all (p : Char → Bool) :
    ∀ (xs ys : List Char), (∀ x ∈ xs, p x = true) →
    (∀ c, ys.head? = some c → p c = false) →
    (xs ++ ys).takeWhile p = xs := by
  intro xs
  induction xs with
  | nil =>
    intro ys _ hys
    cases ys with
    | nil => rfl
    | cons c cs => simp [List.takeWhile, hys c rfl]
  | cons x xs ih =>
    intro ys hxs hys
    simp only [List.cons_append, List.takeWhile, hxs x (List.mem_cons_self x xs)]
    exact congrArg (List.cons x)
      (ih ys (fun a ha => hxs a (List.mem_cons_of_mem x ha)) hys)

theorem take13_prefix (xs : List Char) :
    ("pull-request-".data ++ xs).take 13 = "pull-request-".data := by
  rw [show (13 : Nat) = ("pull-request-".data).length from by decide]
  exact List.take_left _ _

theorem drop13_prefix (xs : List Char) :
    ("pull-request-".data ++ xs).drop 13 = xs := by
  rw [show (13 : Nat) = ("pull-request-".data).length from by decide]
  exact List.drop_left _ _

/-- Core recovery lemma: a branch name of the shape
pull-request-<decimal n><rest>, with rest not starting in a digit, is
mapped back to n by get_pull_request_ID. -/
theorem get_pull_request_ID_decomp (n : Nat) (s : String) (rest : List Char)
    (hs : s.data = "pull-request-".data ++ ((pyStr n).data ++ rest))
    (hrest : ∀ c, rest.head? = some c → c.isDigit = false) :
    get_pull_request_ID s = some n := by
  rw [get_pull_request_ID, hs, take13_prefix, if_pos rfl, drop13_prefix,
    takeWhile_append_all Char.isDigit _ rest (pyStr_all_digit n) hrest]
  rcases hd : (pyStr n).data with _ | ⟨c, cs⟩
  · exact absurd hd (pyStr_data_ne_nil n)
  · show some (parseDigits (c :: cs)) = some n
    rw [← hd, parseDigits_pyStr n]

/- ------------------------------------------------------------------ -/
/- Claim C2                                                            -/
/- ------------------------------------------------------------------ -/

/-- Claim C2: for every positive pull-request ID and any head ref and
title, the ID is recovered from the branch name built for the pull
request - the digits right after the fixed prefix are taken and any
appended ticket suffix is ignored. -/
theorem C2_branch_name_id_roundtrip (n : Nat) (head_ref title : String)
    (hn : 0 < n) :
    get_pull_request_ID (build_branch_name (PullRequest.mk n head_ref title))
      = some n := by
  rw [build_branch_name]
  by_cases h1 : get_jira_ticket head_ref = ""
  · by_cases h2 : get_jira_ticket title = ""
    · rw [if_pos h1, h2, if_pos rfl]
      exact get_pull_request_ID_decomp n _ []
        (by simp [data_append]) (fun c hc => by cases hc)
    · rw [if_pos h1, if_neg h2]
      exact get_pull_request_ID_decomp n _ ('-' :: (get_jira_ticket title).data)
        (by simp [data_append]) (fun c hc => by cases hc; decide)
  · rw [if_neg h1, if_neg h1]
    exact get_pull_request_ID_decomp n _ ('-' :: (get_jira_ticket head_ref).data)
      (by simp [data_append]) (fun c hc => by cases hc; decide)

/-- Witness for C2: pull request 5 with empty head ref and title. -/
theorem C2_branch_name_id_roundtrip_witness :
    0 < 5 ∧
    get_pull_request_ID (build_branch_name (PullRequest.mk 5 "" "")) = some 5 :=
  ⟨by decide, C2_branch_name_id_roundtrip 5 "" "" (by decide)⟩

/- ------------------------------------------------------------------ -/
/- Claim C5                                                            -/
/- ------------------------------------------------------------------ -/

/-- Counterexample to claim C5 as stated: the branch "pull-request-x" does
not match ^pull-request-(\d+) (the ID function returns None), yet close,
merge and update-current do not fail - the guard only compares the first
13 characters, so the command proceeds with a None ID. -/
theorem C5_counterexample :
    get_pull_request_ID "pull-request-x" = none ∧
    command_close_precheck "pull-request-x" = Except.ok none :=
  ⟨rfl, rfl⟩

/-- Claim C5 (amended): close, merge and update-current fail loudly
exactly when the first 13 characters of the current branch name differ
from the literal prefix pull-request-; the branch-to-ID function returns
the captured integer for names matching the regex and None otherwise; a
name that has the prefix but no digit right after it passes the guard
even though ID recovery yields None. -/
theorem C5_branch_guard (branch_name rest : String) (n : Nat) :
    ((∃ e, get_current_branch_name_of branch_name true = Except.error e) ↔
      branch_name.data.take 13 ≠ "pull-request-".data) ∧
    ((∀ c, rest.data.head? = some c → c.isDigit = false) →
      get_pull_request_ID ("pull-request-" ++ pyStr n ++ rest) = some n) ∧
    ((∀ c, rest.data.head? = some c → c.isDigit = false) →
      get_pull_request_ID ("pull-request-" ++ rest) = none ∧
      command_close_precheck ("pull-request-" ++ rest) = Except.ok none) := by
  refine ⟨?_, ?_, ?_⟩
  · by_cases hb : branch_name.data.take 13 = "pull-request-".data
    · rw [get_current_branch_name_of, if_neg (by simp [hb])]
      simp [hb]
    · rw [get_current_branch_name_of, if_pos ⟨rfl, hb⟩]
      simp [hb]
  · intro hrest
    exact get_pull_request_ID_decomp n _ rest.data
      (by simp [data_append]) hrest
  · intro hrest
    have hid : get_pull_request_ID ("pull-request-" ++ rest) = none := by
      rw [get_pull_request_ID, data_append, take13_prefix, if_pos rfl,
        drop13_prefix]
      rcases hr : rest.data with _ | ⟨c, cs⟩
      · rfl
      · rw [show List.takeWhile Char.isDigit (c :: cs) = [] from by
          simp [List.takeWhile, hrest c (by rw [hr]; rfl)]]
    refine ⟨hid, ?_⟩
    rw [command_close_precheck, get_current_branch_name_of,
      if_neg (by simp [data_append, take13_prefix])]
    show Except.ok (get_pull_request_ID ("pull-request-" ++ rest)) = Except.ok none
    rw [hid]

/-- Witness for C5: a regular pull-request branch recovers its ID, and the
prefix-only gap branch passes the guard with a None ID. -/
theorem C5_branch_guard_witness :
    get_pull_request_ID ("pull-request-" ++ pyStr 12 ++ "-LPS-1") = some 12 ∧
    get_pull_request_ID ("pull-request-" ++ "x") = none ∧
    command_close_precheck ("pull-request-" ++ "x") = Except.ok none :=
  ⟨(C5_branch_guard "b" "-LPS-1" 12).2.1 (by decide),
   ((C5_branch_guard "b" "x" 12).2.2 (by decide)).1,
   ((C5_branch_guard "b" "x" 12).2.2 (by decide)).2⟩

/- ------------------------------------------------------------------ -/
/- Ticket-extraction lemmas and claim C9                               -/
/- ------------------------------------------------------------------ -/

theorem mem_of_mem_takeWhile (p : Char → Bool) :
    ∀ (l : List Char) (x : Char), x ∈ l.takeWhile p → p x = true := by
  intro l
  induction l with
  | nil => intro x hx; cases hx
  | cons a l ih =>
    intro x hx
    cases hpa : p a
    · rw [show (a :: l).takeWhile p = [] from by simp [List.takeWhile, hpa]] at hx
      cases hx
    · rw [show (a :: l).takeWhile p = a :: l.takeWhile p from by
        simp [List.takeWhile, hpa]] at hx
      rcases List.mem_cons.mp hx with rfl | hx'
      · exact hpa
      · exact ih x hx'

theorem takeWhile_append_drop (p : Char → Bool) :
    ∀ l : List Char, l = l.takeWhile p ++ l.drop (l.takeWhile p).length := by
  intro l
  induction l with
  | nil => rfl
  | cons a l ih =>
    cases hpa : p a
    · simp [List.takeWhile, hpa]
    · rw [show (a :: l).takeWhile p = a :: l.takeWhile p from by
        simp [List.takeWhile, hpa]]
      simp only [List.cons_append, List.length_cons, List.drop_succ_cons]
      exact congrArg (List.cons a) ih

theorem ticketMatchAt_of_decomp (u d rest2 : List Char)
    (hu3 : 3 ≤ u.length) (huU : ∀ c ∈ u, c.isUpper = true)
    (hdne : d ≠ []) (hdD : ∀ c ∈ d, c.isDigit = true) :
    ∃ m, ticketMatchAt (u ++ ('-' :: (d ++ rest2))) = some m := by
  have htw : (u ++ ('-' :: (d ++ rest2))).takeWhile Char.isUpper = u :=
    takeWhile_append_all Char.isUpper u _ huU (by intro c hc; cases hc; decide)
  rcases d with _ | ⟨d0, ds⟩
  · exact absurd rfl hdne
  · have htwd : ((d0 :: ds) ++ rest2).takeWhile Char.isDigit
        = d0 :: (ds ++ rest2).takeWhile Char.isDigit := by
      simp [List.takeWhile, hdD d0 (List.mem_cons_self d0 ds)]
    have heq : ticketMatchAt (u ++ ('-' :: ((d0 :: ds) ++ rest2))) =
        some (u ++ '-' :: d0 :: (ds ++ rest2).takeWhile Char.isDigit) := by
      simp only [ticketMatchAt, htw]
      rw [if_neg (by omega), List.drop_left]
      show (if ('-' : Char) = '-' then
          match ((d0 :: ds) ++ rest2).takeWhile Char.isDigit with
          | [] => (none : Option (List Char))
          | dd => some (u ++ '-' :: dd)
        else none) = _
      rw [if_pos rfl, htwd]
    exact ⟨_, heq⟩

theorem ticketSearch_append (pre rest : List Char)
    (hm : ∃ m, ticketMatchAt rest = some m) :
    ∃ m', ticketSearch (pre ++ rest) = some m' := by
  induction pre with
  | nil =>
    obtain ⟨m, hm⟩ := hm
    cases rest with
    | nil => rw [show ticketMatchAt [] = none from rfl] at hm; cases hm
    | cons c cs => exact ⟨m, by simp [ticketSearch, hm]⟩
  | cons a pre ih =>
    obtain ⟨m', hih⟩ := ih
    cases hma : ticketMatchAt (a :: (pre ++ rest)) with
    | some m2 => exact ⟨m2, by rw [List.cons_append]; simp [ticketSearch, hma]⟩
    | none => exact ⟨m', by rw [List.cons_append]; simp [ticketSearch, hma, hih]⟩

theorem ticketMatchAt_some_decomp (l m : List Char)
    (h : ticketMatchAt l = some m) :
    ∃ u d post, l = u ++ ('-' :: (d ++ post)) ∧ 3 ≤ u.length ∧
      (∀ c ∈ u, c.isUpper = true) ∧ d ≠ [] ∧ (∀ c ∈ d, c.isDigit = true) ∧
      m = u ++ '-' :: d := by
  simp only [ticketMatchAt] at h
  by_cases h3 : (l.takeWhile Char.isUpper).length < 3
  · rw [if_pos h3] at h; cases h
  · rw [if_neg h3] at h
    rcases hdrop : l.drop (l.takeWhile Char.isUpper).length with _ | ⟨c, rest⟩
    · rw [hdrop] at h; cases h
    · rw [hdrop] at h
      by_cases hc : c = '-'
      · subst hc
        have h' : (if ('-' : Char) = '-' then
            match rest.takeWhile Char.isDigit with
            | [] => (none : Option (List Char))
            | d => some (l.takeWhile Char.isUpper ++ '-' :: d)
          else none) = some m := h
        rw [if_pos rfl] at h'
        rcases htw : rest.takeWhile Char.isDigit with _ | ⟨d0, ds⟩
        · rw [htw] at h'; cases h'
        · rw [htw] at h'
          have hm : m = l.takeWhile Char.isUpper ++ '-' :: d0 :: ds := by
            injection h' with h''
            exact h''.symm
          refine ⟨l.takeWhile Char.isUpper, d0 :: ds,
            rest.drop (rest.takeWhile Char.isDigit).length, ?_, by omega,
            fun c hcu => mem_of_mem_takeWhile Char.isUpper l c hcu,
            List.cons_ne_nil d0 ds,
            fun c hcd => mem_of_mem_takeWhile Char.isDigit rest c (by rw [htw]; exact hcd),
            hm⟩
          calc l = l.takeWhile Char.isUpper ++
                l.drop (l.takeWhile Char.isUpper).length :=
              takeWhile_append_drop Char.isUpper l
            _ = l.takeWhile Char.isUpper ++ ('-' :: rest) := by rw [hdrop]
            _ = l.takeWhile Char.isUpper ++
                ('-' :: ((d0 :: ds) ++
                  rest.drop (rest.takeWhile Char.isDigit).length)) := by
              rw [show (d0 :: ds) ++ rest.drop (rest.takeWhile Char.isDigit).length
                  = rest from by
                conv_rhs => rw [takeWhile_append_drop Char.isDigit rest]
                rw [htw]]
      · have h' : (if c = '-' then
            match rest.takeWhile Char.isDigit with
            | [] => (none : Option (List Char))
            | d => some (l.takeWhile Char.isUpper ++ '-' :: d)
          else none) = some m := h
        rw [if_neg hc] at h'
        cases h'

theorem ticketSearch_some_decomp :
    ∀ (l m : List Char), ticketSearch l = some m →
    ∃ pre u d post, l = pre ++ (u ++ ('-' :: (d ++ post))) ∧ 3 ≤ u.length ∧
      (∀ c ∈ u, c.isUpper = true) ∧ d ≠ [] ∧ (∀ c ∈ d, c.isDigit = true) ∧
      m = u ++ '-' :: d := by
  intro l
  induction l with
  | nil => intro m h; cases h
  | cons c cs ih =>
    intro m h
    rw [ticketSearch] at h
    cases hma : ticketMatchAt (c :: cs) with
    | some m2 =>
      rw [hma] at h
      injection h with h'
      subst h'
      obtain ⟨u, d, post, hl, hu3, huU, hdne, hdD, hm⟩ :=
        ticketMatchAt_some_decomp (c :: cs) m2 hma
      exact ⟨[], u, d, post, by rw [List.nil_append]; exact hl,
        hu3, huU, hdne, hdD, hm⟩
    | none =>
      rw [hma] at h
      obtain ⟨pre, u, d, post, hl, hu3, huU, hdne, hdD, hm⟩ := ih m h
      exact ⟨c :: pre, u, d, post, by rw [List.cons_append, ← hl],
        hu3, huU, hdne, hdD, hm⟩

/-- Claim C9: branch naming appends at most one ticket token: the head ref
is scanned for the first occurrence of [A-Z]{3,}-[0-9]+ and extraction
returns empty exactly when no occurrence exists; only when the head ref
has no match is the title scanned; when neither matches the branch name is
pull-request-<id> with no suffix and no error. -/
theorem C9_ticket_extraction (s head_ref title : String) (n : Nat) :
    (get_jira_ticket s = "" ↔ ¬ containsTicketPattern s) ∧
    (get_jira_ticket head_ref = "" → get_jira_ticket title = "" →
      build_branch_name (PullRequest.mk n head_ref title) =
        "pull-request-" ++ pyStr n) ∧
    (get_jira_ticket head_ref ≠ "" →
      build_branch_name (PullRequest.mk n head_ref title) =
        "pull-request-" ++ pyStr n ++ "-" ++ get_jira_ticket head_ref) ∧
    (get_jira_ticket head_ref = "" → get_jira_ticket title ≠ "" →
      build_branch_name (PullRequest.mk n head_ref title) =
        "pull-request-" ++ pyStr n ++ "-" ++ get_jira_ticket title) := by
  refine ⟨⟨?_, ?_⟩, ?_, ?_, ?_⟩
  · intro h hcontains
    obtain ⟨pre, u, d, post, hs, hu3, huU, hdne, hdD⟩ := hcontains
    obtain ⟨m', hm'⟩ := ticketSearch_append pre _
      (ticketMatchAt_of_decomp u d post hu3 huU hdne hdD)
    rw [get_jira_ticket, hs, hm'] at h
    obtain ⟨_, u', d', _, _, _, _, hdne', _, hmm⟩ :=
      ticketSearch_some_decomp _ m' hm'
    have : m' = [] := congrArg String.data h
    rw [hmm] at this
    rcases List.append_eq_nil.mp this with ⟨_, habs⟩
    cases habs
  · intro hnc
    rw [get_jira_ticket]
    cases hse : ticketSearch s.data with
    | none => rfl
    | some m =>
      obtain ⟨pre, u, d, post, hl, hu3, huU, hdne, hdD, _⟩ :=
        ticketSearch_some_decomp _ m hse
      exact absurd ⟨pre, u, d, post, hl, hu3, huU, hdne, hdD⟩ hnc
  · intro h1 h2
    simp [build_branch_name, h1, h2]
  · intro h1
    simp [build_branch_name, h1]
  · intro h1 h2
    simp [build_branch_name, h1, h2]

/-- Witness for C9: the spec example head ref yields exactly one appended
ticket token, and a ticket-free pull request keeps the bare name. -/
theorem C9_ticket_extraction_witness :
    build_branch_name (PullRequest.mk 7 "feature/ABC-123-fix" "") =
      "pull-request-" ++ pyStr 7 ++ "-" ++ get_jira_ticket "feature/ABC-123-fix" ∧
    get_jira_ticket "feature/ABC-123-fix" = "ABC-123" ∧
    build_branch_name (PullRequest.mk 7 "feature-branch" "a title") =
      "pull-request-" ++ pyStr 7 :=
  ⟨(C9_ticket_extraction "" "feature/ABC-123-fix" "" 7).2.2.1 (by decide),
   by decide,
   (C9_ticket_extraction "" "feature-branch" "a title" 7).2.1
     (by decide) (by decide)⟩

/- ------------------------------------------------------------------ -/
/- Frame lemmas for the update pipeline                                -/
/- ------------------------------------------------------------------ -/

theorem meta_st_cwd (env : Env) (st : St) (k : String) (v : Option JVal) :
    (meta_st env st k v).cwd = st.cwd := by
  rcases h : get_pull_request_ID (env.branch_at st.cwd) with _ | id <;>
    simp [meta_st, h]

theorem meta_st_trace (env : Env) (st : St) (k : String) (v : Option JVal) :
    (meta_st env st k v).trace = st.trace := by
  rcases h : get_pull_request_ID (env.branch_at st.cwd) with _ | id <;>
    simp [meta_st, h]

theorem meta_st_orig_dir (env : Env) (st : St) (k : String) (v : Option JVal) :
    (meta_st env st k v).orig_dir_file = st.orig_dir_file := by
  rcases h : get_pull_request_ID (env.branch_at st.cwd) with _ | id <;>
    simp [meta_st, h]

theorem update_meta_trace (env : Env) (ub : String) (st : St) :
    (update_meta env ub st).1.trace = st.trace := by
  rcases h : get_current_branch_name env st true with e | b <;>
    simp [update_meta, h, meta_st_trace]

theorem update_meta_orig_dir (env : Env) (ub : String) (st : St) :
    (update_meta env ub st).1.orig_dir_file = st.orig_dir_file := by
  rcases h : get_current_branch_name env st true with e | b <;>
    simp [update_meta, h, meta_st_orig_dir]

theorem complete_update_orig_dir (env : Env) (ub b : String) (st : St) :
    (complete_update env ub b st).1.orig_dir_file = st.orig_dir_file := by
  rw [complete_update]
  by_cases hw : env.in_work_dir_at st.cwd
  · rw [if_pos hw]
    rcases h1 : runSys env st ("git checkout " ++ ub) with ⟨ok1, st1⟩
    have hst1 : st1.orig_dir_file = st.orig_dir_file := by
      have : st1 = (runSys env st ("git checkout " ++ ub)).2 := by rw [h1]
      rw [this]; rfl
    cases ok1
    · simp [hst1]
    · simp only [if_neg (by decide : ¬ (true = false))]
      rcases h2 : get_original_dir_path st1 with e | odp
      · simp [hst1]
      · by_cases hb : env.branch_at odp = b
        · simp only [hb, if_pos rfl]
          rcases h4 : runSys env { st1 with cwd := odp, chdir_file := some odp }
              "git reset --hard && git clean -f" with ⟨ok3, st3⟩
          have hst3 : st3.orig_dir_file = st.orig_dir_file := by
            have : st3 = (runSys env { st1 with cwd := odp, chdir_file := some odp }
                "git reset --hard && git clean -f").2 := by rw [h4]
            rw [this, runSys]
            exact hst1
          cases ok3 <;> simp [update_meta_orig_dir, hst3]
        · simp only [if_neg hb]
          rcases h4 : runSys env { st1 with cwd := odp, chdir_file := some odp }
              ("git checkout " ++ b) with ⟨ok3, st3⟩
          have hst3 : st3.orig_dir_file = st.orig_dir_file := by
            have : st3 = (runSys env { st1 with cwd := odp, chdir_file := some odp }
                ("git checkout " ++ b)).2 := by rw [h4]
            rw [this, runSys]
            exact hst1
          cases ok3 <;> simp [update_meta_orig_dir, hst3]
  · rw [if_neg hw]
    exact update_meta_orig_dir env ub st

theorem complete_update_trace_extends (env : Env) (ub b : String) (st : St) :
    ∃ ext, (complete_update env ub b st).1.trace = st.trace ++ ext := by
  rw [complete_update]
  by_cases hw : env.in_work_dir_at st.cwd
  · rw [if_pos hw]
    rcases h1 : runSys env st ("git checkout " ++ ub) with ⟨ok1, st1⟩
    have hst1 : st1.trace = st.trace ++ [(st.cwd, "git checkout " ++ ub)] := by
      have : st1 = (runSys env st ("git checkout " ++ ub)).2 := by rw [h1]
      rw [this]; rfl
    cases ok1
    · exact ⟨[(st.cwd, "git checkout " ++ ub)], by simp [hst1]⟩
    · simp only [if_neg (by decide : ¬ (true = false))]
      rcases h2 : get_original_dir_path st1 with e | odp
      · exact ⟨[(st.cwd, "git checkout " ++ ub)], by simp [hst1]⟩
      · by_cases hb : env.branch_at odp = b
        · simp only [hb, if_pos rfl]
          rcases h4 : runSys env { st1 with cwd := odp, chdir_file := some odp }
              "git reset --hard && git clean -f" with ⟨ok3, st3⟩
          have hst3 : st3.trace = st.trace ++ [(st.cwd, "git checkout " ++ ub),
              (odp, "git reset --hard && git clean -f")] := by
            have : st3 = (runSys env { st1 with cwd := odp, chdir_file := some odp }
                "git reset --hard && git clean -f").2 := by rw [h4]
            rw [this, runSys]
            simp [hst1]
          cases ok3
          · exact ⟨[(st.cwd, "git checkout " ++ ub),
              (odp, "git reset --hard && git clean -f")], by simp [hst3]⟩
          · exact ⟨[(st.cwd, "git checkout " ++ ub),
              (odp, "git reset --hard && git clean -f")],
              by simp [update_meta_trace, hst3]⟩
        · simp only [if_neg hb]
          rcases h4 : runSys env { st1 with cwd := odp, chdir_file := some odp }
              ("git checkout " ++ b) with ⟨ok3, st3⟩
          have hst3 : st3.trace = st.trace ++ [(st.cwd, "git checkout " ++ ub),
              (odp, "git checkout " ++ b)] := by
            have : st3 = (runSys env { st1 with cwd := odp, chdir_file := some odp }
                ("git checkout " ++ b)).2 := by rw [h4]
            rw [this, runSys]
            simp [hst1]
          cases ok3
          · exact ⟨[(st.cwd, "git checkout " ++ ub), (odp, "git checkout " ++ b)],
              by simp [hst3]⟩
          · exact ⟨[(st.cwd, "git checkout " ++ ub), (odp, "git checkout " ++ b)],
              by simp [update_meta_trace, hst3]⟩
  · rw [if_neg hw]
    exact ⟨[], by simp [update_meta_trace]⟩

theorem meta_single_set (fields : List (String × JVal)) (k : String) (v : JVal)
    (hk : strSplit k '.' = [k]) :
    meta (some (some (JVal.obj fields))) k (some v)
      = (some v, some (some (JVal.obj (setField fields k v))), []) := by
  simp only [meta, hk, List.getLast?_singleton, List.dropLast_single, jsonSetPath]

theorem meta_st_set (env : Env) (st : St) (k : String) (v : JVal) (id : Nat)
    (fields : List (String × JVal))
    (hid : get_pull_request_ID (env.branch_at st.cwd) = some id)
    (hroot : st.meta_files id = some (some (JVal.obj fields)))
    (hk : strSplit k '.' = [k]) :
    meta_st env st k (some v)
      = { st with meta_files := fun i =>
            if i = id then some (some (JVal.obj (setField fields k v)))
            else st.meta_files i } := by
  simp only [meta_st, hid, hroot, meta_single_set fields k v hk, List.append_nil]

/- ------------------------------------------------------------------ -/
/- Claim C4                                                            -/
/- ------------------------------------------------------------------ -/

/-- Claim C4: continue-update runs only the completion half of the
configured method - git commit for merge, git rebase --continue for
rebase, never the other - as the single os.system call it makes; when it
exits non-zero the command aborts with the resolve-and-continue
instruction and the metadata store is untouched; when it succeeds the
updated commit pair is recomputed from git and persisted. -/
theorem C4_continue_update (env : Env) (update_method update_branch_opt cmd : String)
    (st : St) (id : Nat) (fields : List (String × JVal))
    (hm : update_method = "merge" ∨ update_method = "rebase")
    (hcmd : cmd = if update_method = "merge" then "git commit"
      else "git rebase --continue")
    (hwd : env.in_work_dir_at st.cwd = false)
    (hbranch : (env.branch_at st.cwd).data.take 13 = "pull-request-".data)
    (hid : get_pull_request_ID (env.branch_at st.cwd) = some id)
    (hroot : st.meta_files id = some (some (JVal.obj fields))) :
    ((continue_update env update_method update_branch_opt st).1.trace
        = st.trace ++ [(st.cwd, cmd)]) ∧
    (env.exit_at st.cwd cmd = false →
      (continue_update env update_method update_branch_opt st).2
        = some ("Updating from " ++ update_branch_opt ++
          " failed\nResolve conflicts and \x27git add\x27 files, then run \x27gitpr continue-update\x27") ∧
      (continue_update env update_method update_branch_opt st).1.meta_files
        = st.meta_files) ∧
    (env.exit_at st.cwd cmd = true →
      (continue_update env update_method update_branch_opt st).2 = none ∧
      (continue_update env update_method update_branch_opt st).1.meta_files id
        = some (some (JVal.obj (setField fields "updated" (JVal.obj
            [("parent_commit", JVal.str (((env.popen_at st.cwd
                ("git merge-base " ++ update_branch_opt ++ " " ++
                  env.branch_at st.cwd)).trim).take 10)),
             ("head_commit", JVal.str (((env.popen_at st.cwd
                "git rev-parse HEAD").trim).take 10))]))))) := by
  have hguard : get_current_branch_name_of (env.branch_at st.cwd) true
      = Except.ok (env.branch_at st.cwd) := by
    rw [get_current_branch_name_of, if_neg]
    intro hcontra
    exact hcontra.2 hbranch
  rcases hm with rfl | rfl
  · have hc : cmd = "git commit" := by rw [hcmd, if_pos rfl]
    subst hc
    cases hexit : env.exit_at st.cwd "git commit"
    · refine ⟨?_, ?_, ?_⟩
      · simp only [continue_update, runSys, hexit, reduceIte]
      · intro _
        refine ⟨?_, ?_⟩
        · simp only [continue_update, runSys, hexit, reduceIte]
        · simp only [continue_update, runSys, hexit, reduceIte]
      · intro h
        exact absurd h (by decide)
    · refine ⟨?_, ?_, ?_⟩
      · simp only [continue_update, runSys, hexit, reduceIte,
          if_neg (by decide : ¬ (true = false)), if_neg (by decide : ¬ (false = true)),
          if_neg (by decide : ¬ ("rebase" : String) = "merge"),
          get_current_branch_name, hguard, complete_update, hwd, update_meta]
        rw [meta_st_trace]
      · intro h
        exact absurd h (by decide)
      · intro _
        refine ⟨?_, ?_⟩
        · simp only [continue_update, runSys, hexit, reduceIte,
            if_neg (by decide : ¬ (true = false)), if_neg (by decide : ¬ (false = true)),
            if_neg (by decide : ¬ ("rebase" : String) = "merge"),
            get_current_branch_name, hguard, complete_update, hwd, update_meta]
        · simp only [continue_update, runSys, hexit, reduceIte,
            if_neg (by decide : ¬ (true = false)), if_neg (by decide : ¬ (false = true)),
            if_neg (by decide : ¬ ("rebase" : String) = "merge"),
            get_current_branch_name, hguard, complete_update, hwd, update_meta]
          rw [meta_st_set env
            ({ st with trace := st.trace ++ [(st.cwd, "git commit")] })
            "updated" _ id fields hid hroot rfl]
          simp
  · have hc : cmd = "git rebase --continue" := by
      rw [hcmd, if_neg (by decide : ¬ ("rebase" : String) = "merge")]
    subst hc
    cases hexit : env.exit_at st.cwd "git rebase --continue"
    · refine ⟨?_, ?_, ?_⟩
      · simp only [continue_update, runSys, hexit, reduceIte,
          if_neg (by decide : ¬ ("rebase" : String) = "merge")]
      · intro _
        refine ⟨?_, ?_⟩
        · simp only [continue_update, runSys, hexit, reduceIte,
            if_neg (by decide : ¬ ("rebase" : String) = "merge")]
        · simp only [continue_update, runSys, hexit, reduceIte,
            if_neg (by decide : ¬ ("rebase" : String) = "merge")]
      · intro h
        exact absurd h (by decide)
    · refine ⟨?_, ?_, ?_⟩
      · simp only [continue_update, runSys, hexit, reduceIte,
          if_neg (by decide : ¬ (true = false)), if_neg (by decide : ¬ (false = true)),
          if_neg (by decide : ¬ ("rebase" : String) = "merge"),
          get_current_branch_name, hguard, complete_update, hwd, update_meta]
        rw [meta_st_trace]
      · intro h
        exact absurd h (by decide)
      · intro _
        refine ⟨?_, ?_⟩
        · simp only [continue_update, runSys, hexit, reduceIte,
            if_neg (by decide : ¬ (true = false)), if_neg (by decide : ¬ (false = true)),
            if_neg (by decide : ¬ ("rebase" : String) = "merge"),
            get_current_branch_name, hguard, complete_update, hwd, update_meta]
        · simp only [continue_update, runSys, hexit, reduceIte,
            if_neg (by decide : ¬ (true = false)), if_neg (by decide : ¬ (false = true)),
            if_neg (by decide : ¬ ("rebase" : String) = "merge"),
            get_current_branch_name, hguard, complete_update, hwd, update_meta]
          rw [meta_st_set env
            ({ st with trace := st.trace ++ [(st.cwd, "git rebase --continue")] })
            "updated" _ id fields hid hroot rfl]
          simp

/-- Witness for C4: in the concrete environment a merge-method continue
runs git commit, succeeds, and persists the recomputed updated pair into
the record of pull request 1. -/
theorem C4_continue_update_witness :
    (continue_update witnessEnv "merge" "master" witnessSt).2 = none ∧
    (continue_update witnessEnv "merge" "master" witnessSt).1.meta_files 1
      = some (some (JVal.obj (setField [("username", JVal.str "alice")] "updated"
          (JVal.obj
            [("parent_commit", JVal.str (((witnessEnv.popen_at witnessSt.cwd
                ("git merge-base " ++ "master" ++ " " ++
                  witnessEnv.branch_at witnessSt.cwd)).trim).take 10)),
             ("head_commit", JVal.str (((witnessEnv.popen_at witnessSt.cwd
                "git rev-parse HEAD").trim).take 10))])))) :=
  (C4_continue_update witnessEnv "merge" "master" "git commit" witnessSt 1
    [("username", JVal.str "alice")] (Or.inl rfl) (by decide) rfl (by decide)
    (by decide) rfl).2.2 rfl

/- ------------------------------------------------------------------ -/
/- Claim C6                                                            -/
/- ------------------------------------------------------------------ -/

/-- Claim C6 (the code contradicts it): with a work directory configured
and the update started from outside it, the tool moves into the work
directory and then crashes with an uncaught TypeError while writing the
caller base path (a str) into the binary-mode original_dir_path file: no
git command runs at all - in particular neither the hard reset and clean
nor the checkout nor the merge or rebase - and the pointer file that was
supposed to remember the caller location is left truncated empty, with
the process stranded inside the work directory. -/
theorem C6_work_dir_crash (env : Env)
    (update_method update_branch_opt branch_name work_dir : String) (st : St)
    (hwd : env.in_work_dir_at st.cwd = false)
    (hconf : env.work_dir = some work_dir) :
    (update_branch env update_method update_branch_opt branch_name st).2
      = some "TypeError: a bytes-like object is required, not str" ∧
    (update_branch env update_method update_branch_opt branch_name st).1.trace
      = st.trace ∧
    (update_branch env update_method update_branch_opt branch_name st).1.orig_dir_file
      = some "" ∧
    (update_branch env update_method update_branch_opt branch_name st).1.cwd
      = work_dir := by
  have hne1 : ¬ ((false : Bool) = true) := by decide
  refine ⟨?_, ?_, ?_, ?_⟩ <;>
    simp only [update_branch, hwd, hconf, if_neg hne1]

/-- Witness for C6: starting a merge update of pull-request-1 from /repo
with work directory /work raises the TypeError with an empty trace. -/
theorem C6_work_dir_crash_witness :
    (update_branch witnessWorkDirEnv "merge" "master" "pull-request-1" witnessSt).2
      = some "TypeError: a bytes-like object is required, not str" ∧
    (update_branch witnessWorkDirEnv "merge" "master" "pull-request-1" witnessSt).1.trace
      = witnessSt.trace ∧
    (update_branch witnessWorkDirEnv "merge" "master" "pull-request-1" witnessSt).1.orig_dir_file
      = some "" ∧
    (update_branch witnessWorkDirEnv "merge" "master" "pull-request-1" witnessSt).1.cwd
      = "/work" :=
  C6_work_dir_crash witnessWorkDirEnv "merge" "master" "pull-request-1" "/work"
    witnessSt (by decide) rfl
